import Mathlib

/-!
Verification of the swap-reconstruction and arbitrage-detection core of
mev-inspect-py (file mev_inspect/strategies/arbitrage.py), as a shallow
embedding in Lean 4.

Addresses, tokens and transaction hashes are Python strings, modelled as
String.  Token amounts are Python ints, modelled as Int.  Trace addresses
are lists of small integers, modelled as List Nat.

Python's `sorted` is a stable sort; a stable sort with a fixed total
preorder is unique, so it is modelled by the stable insertion sort
`stableSortBy` below.

The `while True` loop of `_get_arbitrage_starting_with_swap` is not
structurally recursive (and, as proved below, genuinely diverges on some
inputs), so it is embedded step-indexed: `searchLoop` consumes fuel and
reports fuel exhaustion as the distinguished outcome `outOfFuel`, which
records the loop state (path, current address, current token) reached so
far.  All other outcomes (`found`, `noMatch`, `ambiguous`) correspond
exactly to the three exits of the Python loop (return Arbitrage,
return None, raise RuntimeError).
-/

namespace MevInspect

/-! ## Stable sorting and lexicographic orders -/

/-- Lexicographic comparison of character lists by code point, the order
underlying Python string comparison. -/
def charListLe : List Char → List Char → Bool
  | [], _ => true
  | _ :: _, [] => false
  | c :: cs, d :: ds =>
    if c.toNat < d.toNat then true
    else if d.toNat < c.toNat then false
    else charListLe cs ds

/-- Python `<=` on strings: lexicographic by code point. -/
def strLe (a b : String) : Bool := charListLe a.data b.data

/-- Python `<=` on lists of ints (used for trace addresses): lexicographic. -/
def lexLe : List Nat → List Nat → Bool
  | [], _ => true
  | _ :: _, [] => false
  | a :: as, b :: bs =>
    if a < b then true
    else if b < a then false
    else lexLe as bs

/-- Insert `a` after every already-placed element `b` with `le b a`;
the insertion step of a stable insertion sort. -/
def insertLe (le : α → α → Bool) (a : α) : List α → List α
  | [] => [a]
  | b :: bs => if le b a then b :: insertLe le a bs else a :: b :: bs

/-- Stable sort (insertion sort): models Python's stable `sorted`. -/
def stableSortBy (le : α → α → Bool) (l : List α) : List α :=
  l.foldl (fun acc a => insertLe le a acc) []

/-! ## Data model

The schema modules of the repository (classified_traces.py, transfers.py,
swaps.py, arbitrage.py under schemas/) are not part of the two source
files; their record layouts are modelled from §3 of the spec. -/

/-- Modelled from the spec: the semantic tag assigned to a trace by the
external classifier, one of transfer, swap, or other/unclassified. -/
inductive Classification where
  | transfer
  | swap
  | unknown
deriving DecidableEq

/-- Modelled from the spec: a derived, immutable token movement with
`from_address`, `to_address`, `token_address`, `amount`.  It also carries
the `trace_address` of the trace it was built from, which the spec's
descendant/dedup capabilities (§6) require in order to test the
ancestor/descendant relation between transfers. -/
structure Transfer where
  from_address : String
  to_address : String
  token_address : String
  amount : Int
  trace_address : List Nat
deriving DecidableEq

/-- Modelled from the spec: one call-tree node as produced by the external
classifier (§3).  `inputs` is the optional mapping of decoded argument
names to values, modelled as an association list of strings.  The
`token_address` and `amount` fields are the payload that the external
`Transfer::from` constructor reads off a transfer-classified trace. -/
structure ClassifiedTrace where
  transaction_hash : String
  trace_address : List Nat
  classification : Classification
  abi_name : String
  from_address : String
  to_address : String
  inputs : Option (List (String × String))
  token_address : String
  amount : Int
deriving DecidableEq

/-- Core output record `Swap`, fields as in §3 of the spec and as
constructed by `_parse_uniswap_v2_swap` / `_parse_uniswap_v3_swap`. -/
structure Swap where
  abi_name : String
  transaction_hash : String
  trace_address : List Nat
  pool_address : String
  from_address : String
  to_address : String
  token_in_address : String
  token_in_amount : Int
  token_out_address : String
  token_out_amount : Int
deriving DecidableEq

/-- Core output record `Arbitrage`, fields as in §3 of the spec and as
constructed in `_get_arbitrage_starting_with_swap`. -/
structure Arbitrage where
  swaps : List Swap
  account_address : String
  profit_token_address : String
  start_amount : Int
  end_amount : Int
  profit_amount : Int
deriving DecidableEq

/-- Source constant UNISWAP_V2_PAIR_ABI_NAME. -/
def UNISWAP_V2_PAIR_ABI_NAME : String := "UniswapV2Pair"

/-- Source constant UNISWAP_V3_POOL_ABI_NAME. -/
def UNISWAP_V3_POOL_ABI_NAME : String := "UniswapV3Pool"

/-! ## External helpers modelled from the spec

`Transfer.from_trace`, `get_child_transfers`, `filter_transfers` and
`remove_child_transfers` live in mev_inspect/transfers.py, which is not
among the source files; they are modelled from §4.1 and §6 of the spec. -/

/-- Modelled from the spec: `Transfer::from(trace)`, the external pure
constructor, defined only for transfer-classified traces.  It packages the
trace's addresses and token payload into a `Transfer`. -/
def Transfer.from_trace (t : ClassifiedTrace) : Transfer :=
  { from_address := t.from_address
    to_address := t.to_address
    token_address := t.token_address
    amount := t.amount
    trace_address := t.trace_address }

/-- Strict ancestor test on trace addresses: `parent` is a strict
(proper) prefix of `child` (§3 invariant of the spec). -/
def isAncestorAddr : List Nat → List Nat → Bool
  | [], [] => false
  | [], _ :: _ => true
  | _ :: _, [] => false
  | p :: ps, c :: cs => if p = c then isAncestorAddr ps cs else false

/-- Modelled from the spec: the descendant-query capability (§6) composed
with `Transfer::from` — collect the transfers of all transfer-classified
traces whose trace address is a strict descendant of `addr`, in input
order. -/
def get_child_transfers (addr : List Nat) (traces : List ClassifiedTrace) : List Transfer :=
  (traces.filter
      (fun t => decide (t.classification = Classification.transfer)
        && isAncestorAddr addr t.trace_address)).map Transfer.from_trace

/-- Modelled from the spec: the dedup capability (§4.1 step 2, §6) —
remove any transfer that is an ancestor-call transfer shadowed by a
transfer nested inside it, keeping only the innermost one of each
ancestor chain. -/
def remove_child_transfers (transfers : List Transfer) : List Transfer :=
  transfers.filter
    (fun t => !(transfers.any (fun u => isAncestorAddr t.trace_address u.trace_address)))

/-- Modelled from the spec: `filter_transfers`, keyword-filtering a
transfer list by an optional required `to_address` and an optional
required `from_address` (the two call shapes used by the parsers). -/
def filter_transfers (transfers : List Transfer)
    (toAddr : Option String) (fromAddr : Option String) : List Transfer :=
  transfers.filter (fun t =>
    (match toAddr with
     | some a => t.to_address == a
     | none => true)
    && (match fromAddr with
        | some a => t.from_address == a
        | none => true))

/-! ## Swap reconstruction (translated from the source) -/

/-- Python subterm `trace.inputs[key] if trace.inputs is not None and key
in trace.inputs else trace.from_address`, shared by both parsers
(with key "to" for V2 and "recipient" for V3). -/
def trace_recipient (t : ClassifiedTrace) (key : String) : String :=
  match t.inputs with
  | some inputs =>
    match inputs.lookup key with
    | some r => r
    | none => t.from_address
  | none => t.from_address

/-- Source subterm `transfers_to_pool` of `_parse_uniswap_v2_swap`:
prior transfers whose to_address is the pool (= the trace's to_address). -/
def transfers_to_pool_v2 (t : ClassifiedTrace) (prior_transfers : List Transfer) : List Transfer :=
  filter_transfers prior_transfers (some t.to_address) none

/-- Source subterm `transfers_from_pool_to_recipient` of
`_parse_uniswap_v2_swap`: child transfers from the pool to the recipient. -/
def transfers_out_v2 (t : ClassifiedTrace) (child_transfers : List Transfer) : List Transfer :=
  filter_transfers child_transfers (some (trace_recipient t "to")) (some t.to_address)

/-- Source subterm `transfers_to_pool` of `_parse_uniswap_v3_swap`:
child transfers whose to_address is the pool. -/
def transfers_to_pool_v3 (t : ClassifiedTrace) (child_transfers : List Transfer) : List Transfer :=
  filter_transfers child_transfers (some t.to_address) none

/-- Source subterm `transfers_from_pool_to_recipient` of
`_parse_uniswap_v3_swap`. -/
def transfers_out_v3 (t : ClassifiedTrace) (child_transfers : List Transfer) : List Transfer :=
  filter_transfers child_transfers (some (trace_recipient t "recipient")) (some t.to_address)

/-- Translation of `_parse_uniswap_v2_swap`.  The source checks
`len(transfers_to_pool) == 0` (here: `getLast? = none`) and
`len(transfers_from_pool_to_recipient) != 1` (here: the list is not a
singleton) and otherwise builds the Swap from
`transfers_to_pool[-1]` (`getLast?`) and
`transfers_from_pool_to_recipient[0]` (the singleton element). -/
def parse_uniswap_v2_swap (t : ClassifiedTrace)
    (prior_transfers child_transfers : List Transfer) : Option Swap :=
  match (transfers_to_pool_v2 t prior_transfers).getLast?, transfers_out_v2 t child_transfers with
  | some transfer_in, [transfer_out] =>
    some
      { abi_name := UNISWAP_V2_PAIR_ABI_NAME
        transaction_hash := t.transaction_hash
        trace_address := t.trace_address
        pool_address := t.to_address
        from_address := transfer_in.from_address
        to_address := transfer_out.to_address
        token_in_address := transfer_in.token_address
        token_in_amount := transfer_in.amount
        token_out_address := transfer_out.token_address
        token_out_amount := transfer_out.amount }
  | _, _ => none

/-- Translation of `_parse_uniswap_v3_swap`; same shape as the V2 parser
but both transfer lists are drawn from the child transfers. -/
def parse_uniswap_v3_swap (t : ClassifiedTrace)
    (child_transfers : List Transfer) : Option Swap :=
  match (transfers_to_pool_v3 t child_transfers).getLast?, transfers_out_v3 t child_transfers with
  | some transfer_in, [transfer_out] =>
    some
      { abi_name := UNISWAP_V3_POOL_ABI_NAME
        transaction_hash := t.transaction_hash
        trace_address := t.trace_address
        pool_address := t.to_address
        from_address := transfer_in.from_address
        to_address := transfer_out.to_address
        token_in_address := transfer_in.token_address
        token_in_amount := transfer_in.amount
        token_out_address := transfer_out.token_address
        token_out_amount := transfer_out.amount }
  | _, _ => none

/-- Translation of `_build_swap`: protocol dispatch on `abi_name`. -/
def build_swap (t : ClassifiedTrace)
    (prior_transfers child_transfers : List Transfer) : Option Swap :=
  if t.abi_name = UNISWAP_V2_PAIR_ABI_NAME then
    parse_uniswap_v2_swap t prior_transfers child_transfers
  else if t.abi_name = UNISWAP_V3_POOL_ABI_NAME then
    parse_uniswap_v3_swap t child_transfers
  else
    none

/-- Loop body of `_get_swaps`: scan the address-ordered traces once,
appending `Transfer.from_trace` for each transfer trace to the running
`prior_transfers` list and building a swap for each swap trace.
`allTraces` is the full (unsorted) input list, which the source passes to
`get_child_transfers`. -/
def getSwapsGo (allTraces : List ClassifiedTrace) :
    List ClassifiedTrace → List Transfer → List Swap
  | [], _ => []
  | t :: rest, prior_transfers =>
    match t.classification with
    | Classification.transfer =>
      getSwapsGo allTraces rest (prior_transfers ++ [Transfer.from_trace t])
    | Classification.swap =>
      match build_swap t
          (remove_child_transfers prior_transfers)
          (remove_child_transfers (get_child_transfers t.trace_address allTraces)) with
      | some s => s :: getSwapsGo allTraces rest prior_transfers
      | none => getSwapsGo allTraces rest prior_transfers
    | Classification.unknown => getSwapsGo allTraces rest prior_transfers

/-- Translation of `_get_swaps`: process traces in trace-address order. -/
def get_swaps (traces : List ClassifiedTrace) : List Swap :=
  getSwapsGo traces
    (stableSortBy (fun a b => lexLe a.trace_address b.trace_address) traces) []

/-! ## Arbitrage detection (translated from the source) -/

/-- Loop subterm `swaps_from_current_address` of
`_get_arbitrage_starting_with_swap`: the swaps of `other_swaps` whose
pool is the current address and whose input token is the current token. -/
def swapsMatching (other_swaps : List Swap) (addr tok : String) : List Swap :=
  other_swaps.filter
    (fun s => s.pool_address == addr && s.token_in_address == tok)

/-- Arbitrage record built at the successful exit of the source loop:
`start_amount = start_swap.token_in_amount`,
`end_amount = latest_swap.token_out_amount`,
`profit_amount = end_amount - start_amount`. -/
def mkArbitrage (start_swap : Swap) (swap_path : List Swap) (latest_swap : Swap) : Arbitrage :=
  { swaps := swap_path
    account_address := start_swap.from_address
    profit_token_address := start_swap.token_in_address
    start_amount := start_swap.token_in_amount
    end_amount := latest_swap.token_out_amount
    profit_amount := latest_swap.token_out_amount - start_swap.token_in_amount }

/-- Outcome of the `while True` loop.  `found`, `noMatch` and `ambiguous`
are the source's three exits (return an Arbitrage, return None, raise
RuntimeError).  `outOfFuel` is the step-index artefact: it records the
loop state (path grown so far, current address, current token) after the
given number of iterations without an exit. -/
inductive SearchOutcome where
  | found (a : Arbitrage)
  | noMatch
  | ambiguous
  | outOfFuel (swap_path : List Swap) (addr tok : String)
deriving DecidableEq

/-- Step-indexed translation of the `while True` loop of
`_get_arbitrage_starting_with_swap`.  One fuel unit is one iteration:
zero matching swaps exits with None, more than one raises, exactly one is
appended to the path and either closes the cycle (emitting the
Arbitrage) or updates the current address/token and continues. -/
def searchLoop (start_swap : Swap) (other_swaps : List Swap) :
    Nat → List Swap → String → String → SearchOutcome
  | 0, swap_path, addr, tok => SearchOutcome.outOfFuel swap_path addr tok
  | fuel + 1, swap_path, addr, tok =>
    match swapsMatching other_swaps addr tok with
    | [] => SearchOutcome.noMatch
    | [latest_swap] =>
      if latest_swap.to_address == start_swap.from_address
          && latest_swap.token_out_address == start_swap.token_in_address then
        SearchOutcome.found (mkArbitrage start_swap (swap_path ++ [latest_swap]) latest_swap)
      else
        searchLoop start_swap other_swaps fuel (swap_path ++ [latest_swap])
          latest_swap.to_address latest_swap.token_out_address
    | _ :: _ :: _ => SearchOutcome.ambiguous

/-- Translation of `_get_arbitrage_starting_with_swap`: the loop starts
from path `[start_swap]` with current address `start_swap.to_address` and
current token `start_swap.token_out_address`. -/
def get_arbitrage_starting_with_swap (fuel : Nat)
    (start_swap : Swap) (other_swaps : List Swap) : SearchOutcome :=
  searchLoop start_swap other_swaps fuel [start_swap]
    start_swap.to_address start_swap.token_out_address

/-- Result of detection over a whole swap list / trace list.
`runtimeError` is the propagated RuntimeError of the ambiguous case;
`outOfFuel` again marks fuel exhaustion of some inner loop. -/
inductive DetectResult where
  | ok (arbitrages : List Arbitrage)
  | runtimeError
  | outOfFuel
deriving DecidableEq

/-- Whether a detection result is a normally returned list. -/
def DetectResult.isOk : DetectResult → Bool
  | DetectResult.ok _ => true
  | _ => false

/-- Loop body of `_get_arbitrages_from_swaps` over `enumerate(swaps)`:
for each index `i` whose swap's from_address is not a pool address, run
the path search on `swaps[:i] + swaps[i+1:]`; collect found arbitrages in
order; a raised error aborts everything. -/
def arbitragesGo (fuel : Nat) (allSwaps : List Swap) (pools : List String) :
    List (Nat × Swap) → DetectResult
  | [] => DetectResult.ok []
  | (i, first_swap) :: rest =>
    if pools.contains first_swap.from_address then
      arbitragesGo fuel allSwaps pools rest
    else
      match get_arbitrage_starting_with_swap fuel first_swap
          (allSwaps.take i ++ allSwaps.drop (i + 1)) with
      | SearchOutcome.found a =>
        match arbitragesGo fuel allSwaps pools rest with
        | DetectResult.ok arbs => DetectResult.ok (a :: arbs)
        | r => r
      | SearchOutcome.noMatch => arbitragesGo fuel allSwaps pools rest
      | SearchOutcome.ambiguous => DetectResult.runtimeError
      | SearchOutcome.outOfFuel _ _ _ => DetectResult.outOfFuel

/-- Translation of `_get_arbitrages_from_swaps`.  The Python set
`pool_addresses` is used only for membership tests, so it is modelled by
the list of pool addresses with `contains`. -/
def get_arbitrages_from_swaps (fuel : Nat) (swaps : List Swap) : DetectResult :=
  arbitragesGo fuel swaps (swaps.map Swap.pool_address) swaps.enum

/-- Translation of `_get_arbitrages_for_transaction`: reconstruct the
swaps and run detection only when more than one swap was found. -/
def get_arbitrages_for_transaction (fuel : Nat)
    (traces : List ClassifiedTrace) : DetectResult :=
  if (get_swaps traces).length > 1 then
    get_arbitrages_from_swaps fuel (get_swaps traces)
  else
    DetectResult.ok []

/-- Concatenation of per-transaction results, with a raised error (or
fuel exhaustion) aborting the whole computation, as an uncaught Python
exception would. -/
def concatTransactions (fuel : Nat) : List (List ClassifiedTrace) → DetectResult
  | [] => DetectResult.ok []
  | g :: gs =>
    match get_arbitrages_for_transaction fuel g with
    | DetectResult.ok arbs =>
      match concatTransactions fuel gs with
      | DetectResult.ok rest => DetectResult.ok (arbs ++ rest)
      | r => r
    | r => r

/-- Source subterm `sorted(traces, key=get_transaction_hash)` of
`get_arbitrages`. -/
def sortTracesByHash (traces : List ClassifiedTrace) : List ClassifiedTrace :=
  stableSortBy (fun a b => strLe a.transaction_hash b.transaction_hash) traces

/-- Source subterm `groupby(sorted(...), key=get_transaction_hash)` of
`get_arbitrages`: after sorting by hash, `itertools.groupby` splits into
maximal runs of equal keys. -/
def traceGroups (traces : List ClassifiedTrace) : List (List ClassifiedTrace) :=
  List.splitBy (fun a b => a.transaction_hash == b.transaction_hash)
    (sortTracesByHash traces)

/-- Translation of `get_arbitrages`: sort all traces by transaction hash,
group by hash, process each group and concatenate. -/
def get_arbitrages (fuel : Nat) (traces : List ClassifiedTrace) : DetectResult :=
  concatTransactions fuel (traceGroups traces)

/-! ## Concrete inputs used by witnesses and counterexamples -/

/-- Start swap of a two-hop cycle whose closing amount is below the
starting amount (profit −10). -/
def swapStartNeg : Swap :=
  { abi_name := "UniswapV2Pair", transaction_hash := "0xtx1", trace_address := [0]
    pool_address := "P1", from_address := "X", to_address := "P2"
    token_in_address := "A", token_in_amount := 100
    token_out_address := "B", token_out_amount := 80 }

/-- Closing swap of the negative-profit cycle: returns token A to X. -/
def swapCloseNeg : Swap :=
  { abi_name := "UniswapV2Pair", transaction_hash := "0xtx1", trace_address := [1]
    pool_address := "P2", from_address := "P1", to_address := "X"
    token_in_address := "B", token_in_amount := 80
    token_out_address := "A", token_out_amount := 90 }

/-- The arbitrage the detector emits for the negative-profit cycle. -/
def arbNeg : Arbitrage :=
  { swaps := [swapStartNeg, swapCloseNeg]
    account_address := "X", profit_token_address := "A"
    start_amount := 100, end_amount := 90, profit_amount := -10 }

/-- Start swap for the divergence example: sends the path to pool P1
holding token B. -/
def swapLoopStart : Swap :=
  { abi_name := "UniswapV2Pair", transaction_hash := "0xtx2", trace_address := [0]
    pool_address := "P0", from_address := "X", to_address := "P1"
    token_in_address := "A", token_in_amount := 100
    token_out_address := "B", token_out_amount := 80 }

/-- Self-loop swap: at pool P1 it takes token B and hands token B back to
P1, so the loop state (P1, B) recurs forever. -/
def swapSelfLoop : Swap :=
  { abi_name := "UniswapV2Pair", transaction_hash := "0xtx2", trace_address := [1]
    pool_address := "P1", from_address := "Y", to_address := "P1"
    token_in_address := "B", token_in_amount := 80
    token_out_address := "B", token_out_amount := 80 }

/-- Start swap of the ambiguity example. -/
def ambStart : Swap :=
  { abi_name := "UniswapV2Pair", transaction_hash := "0xtx5", trace_address := [0]
    pool_address := "P0", from_address := "X", to_address := "P1"
    token_in_address := "A", token_in_amount := 100
    token_out_address := "B", token_out_amount := 80 }

/-- First of two candidate continuations at (P1, B). -/
def ambOne : Swap :=
  { abi_name := "UniswapV2Pair", transaction_hash := "0xtx5", trace_address := [1]
    pool_address := "P1", from_address := "P0", to_address := "X"
    token_in_address := "B", token_in_amount := 80
    token_out_address := "A", token_out_amount := 101 }

/-- Second candidate continuation at (P1, B). -/
def ambTwo : Swap :=
  { abi_name := "UniswapV2Pair", transaction_hash := "0xtx5", trace_address := [2]
    pool_address := "P1", from_address := "P0", to_address := "X"
    token_in_address := "B", token_in_amount := 80
    token_out_address := "A", token_out_amount := 102 }

/-- Swap-classified V2 trace whose decoded inputs declare recipient X. -/
def trV2 : ClassifiedTrace :=
  { transaction_hash := "0xtx3", trace_address := [0]
    classification := Classification.swap, abi_name := "UniswapV2Pair"
    from_address := "R", to_address := "P1"
    inputs := some [("to", "X")], token_address := "", amount := 0 }

/-- Prior transfer of token A from X into pool P1. -/
def tIn : Transfer :=
  { from_address := "X", to_address := "P1", token_address := "A"
    amount := 100, trace_address := [0] }

/-- Child transfer of token B from pool P1 to recipient X. -/
def tOut : Transfer :=
  { from_address := "P1", to_address := "X", token_address := "B"
    amount := 80, trace_address := [0, 0] }

/-- The swap built from trV2 with input tIn and output tOut. -/
def swapV2Built : Swap :=
  { abi_name := "UniswapV2Pair", transaction_hash := "0xtx3", trace_address := [0]
    pool_address := "P1", from_address := "X", to_address := "X"
    token_in_address := "A", token_in_amount := 100
    token_out_address := "B", token_out_amount := 80 }

/-- Swap-classified trace with an unrecognized protocol name. -/
def trUnrecognized : ClassifiedTrace :=
  { transaction_hash := "0xtx3", trace_address := [1]
    classification := Classification.swap, abi_name := "BalancerPool"
    from_address := "X", to_address := "P9"
    inputs := none, token_address := "", amount := 0 }

/-- Swap-classified V3 trace whose decoded inputs declare recipient R2. -/
def trV3 : ClassifiedTrace :=
  { transaction_hash := "0xtx4", trace_address := [2]
    classification := Classification.swap, abi_name := "UniswapV3Pool"
    from_address := "X", to_address := "P2"
    inputs := some [("recipient", "R2")], token_address := "", amount := 0 }

/-- Child transfer of token B from W into pool P2 (note that W differs
from the swap call's own from_address X). -/
def uIn : Transfer :=
  { from_address := "W", to_address := "P2", token_address := "B"
    amount := 80, trace_address := [2, 0] }

/-- Child transfer of token C from pool P2 to recipient R2. -/
def uOut : Transfer :=
  { from_address := "P2", to_address := "R2", token_address := "C"
    amount := 50, trace_address := [2, 1] }

/-- The swap built from trV3 with input uIn and output uOut. -/
def swapV3Built : Swap :=
  { abi_name := "UniswapV3Pool", transaction_hash := "0xtx4", trace_address := [2]
    pool_address := "P2", from_address := "W", to_address := "R2"
    token_in_address := "B", token_in_amount := 80
    token_out_address := "C", token_out_amount := 50 }

/-- Transaction "b": first hop, a V3 swap at pool PB1 forwarding its
output to pool PB2. -/
def txB0 : ClassifiedTrace :=
  { transaction_hash := "b", trace_address := [0]
    classification := Classification.swap, abi_name := "UniswapV3Pool"
    from_address := "X", to_address := "PB1"
    inputs := some [("recipient", "PB2")], token_address := "", amount := 0 }

/-- Transaction "b": transfer of 100 TA from X into PB1 (child of txB0). -/
def txB1 : ClassifiedTrace :=
  { transaction_hash := "b", trace_address := [0, 0]
    classification := Classification.transfer, abi_name := ""
    from_address := "X", to_address := "PB1"
    inputs := none, token_address := "TA", amount := 100 }

/-- Transaction "b": transfer of 80 TB from PB1 to PB2 (child of txB0). -/
def txB2 : ClassifiedTrace :=
  { transaction_hash := "b", trace_address := [0, 1]
    classification := Classification.transfer, abi_name := ""
    from_address := "PB1", to_address := "PB2"
    inputs := none, token_address := "TB", amount := 80 }

/-- Transaction "b": second hop, a V3 swap at pool PB2 returning TA to X. -/
def txB3 : ClassifiedTrace :=
  { transaction_hash := "b", trace_address := [1]
    classification := Classification.swap, abi_name := "UniswapV3Pool"
    from_address := "X", to_address := "PB2"
    inputs := none, token_address := "", amount := 0 }

/-- Transaction "b": transfer of 80 TB from PB1 into PB2 (child of txB3). -/
def txB4 : ClassifiedTrace :=
  { transaction_hash := "b", trace_address := [1, 0]
    classification := Classification.transfer, abi_name := ""
    from_address := "PB1", to_address := "PB2"
    inputs := none, token_address := "TB", amount := 80 }

/-- Transaction "b": transfer of 110 TA from PB2 back to X (child of txB3). -/
def txB5 : ClassifiedTrace :=
  { transaction_hash := "b", trace_address := [1, 1]
    classification := Classification.transfer, abi_name := ""
    from_address := "PB2", to_address := "X"
    inputs := none, token_address := "TA", amount := 110 }

/-- Transaction "a": first hop, a V3 swap at pool PA1 forwarding to PA2. -/
def txA0 : ClassifiedTrace :=
  { transaction_hash := "a", trace_address := [0]
    classification := Classification.swap, abi_name := "UniswapV3Pool"
    from_address := "X", to_address := "PA1"
    inputs := some [("recipient", "PA2")], token_address := "", amount := 0 }

/-- Transaction "a": transfer of 200 TA from X into PA1 (child of txA0). -/
def txA1 : ClassifiedTrace :=
  { transaction_hash := "a", trace_address := [0, 0]
    classification := Classification.transfer, abi_name := ""
    from_address := "X", to_address := "PA1"
    inputs := none, token_address := "TA", amount := 200 }

/-- Transaction "a": transfer of 150 TB from PA1 to PA2 (child of txA0). -/
def txA2 : ClassifiedTrace :=
  { transaction_hash := "a", trace_address := [0, 1]
    classification := Classification.transfer, abi_name := ""
    from_address := "PA1", to_address := "PA2"
    inputs := none, token_address := "TB", amount := 150 }

/-- Transaction "a": second hop, a V3 swap at pool PA2 returning TA to X. -/
def txA3 : ClassifiedTrace :=
  { transaction_hash := "a", trace_address := [1]
    classification := Classification.swap, abi_name := "UniswapV3Pool"
    from_address := "X", to_address := "PA2"
    inputs := none, token_address := "", amount := 0 }

/-- Transaction "a": transfer of 150 TB from PA1 into PA2 (child of txA3). -/
def txA4 : ClassifiedTrace :=
  { transaction_hash := "a", trace_address := [1, 0]
    classification := Classification.transfer, abi_name := ""
    from_address := "PA1", to_address := "PA2"
    inputs := none, token_address := "TB", amount := 150 }

/-- Transaction "a": transfer of 230 TA from PA2 back to X (child of txA3). -/
def txA5 : ClassifiedTrace :=
  { transaction_hash := "a", trace_address := [1, 1]
    classification := Classification.transfer, abi_name := ""
    from_address := "PA2", to_address := "X"
    inputs := none, token_address := "TA", amount := 230 }

/-- All traces of transaction "b", in trace order. -/
def tracesB : List ClassifiedTrace := [txB0, txB1, txB2, txB3, txB4, txB5]

/-- All traces of transaction "a", in trace order. -/
def tracesA : List ClassifiedTrace := [txA0, txA1, txA2, txA3, txA4, txA5]

/-- The arbitrage reconstructed and detected for transaction "b". -/
def arbB : Arbitrage :=
  { swaps :=
      [{ abi_name := "UniswapV3Pool", transaction_hash := "b", trace_address := [0]
         pool_address := "PB1", from_address := "X", to_address := "PB2"
         token_in_address := "TA", token_in_amount := 100
         token_out_address := "TB", token_out_amount := 80 },
       { abi_name := "UniswapV3Pool", transaction_hash := "b", trace_address := [1]
         pool_address := "PB2", from_address := "PB1", to_address := "X"
         token_in_address := "TB", token_in_amount := 80
         token_out_address := "TA", token_out_amount := 110 }]
    account_address := "X", profit_token_address := "TA"
    start_amount := 100, end_amount := 110, profit_amount := 10 }

/-- The arbitrage reconstructed and detected for transaction "a". -/
def arbA : Arbitrage :=
  { swaps :=
      [{ abi_name := "UniswapV3Pool", transaction_hash := "a", trace_address := [0]
         pool_address := "PA1", from_address := "X", to_address := "PA2"
         token_in_address := "TA", token_in_amount := 200
         token_out_address := "TB", token_out_amount := 150 },
       { abi_name := "UniswapV3Pool", transaction_hash := "a", trace_address := [1]
         pool_address := "PA2", from_address := "PA1", to_address := "X"
         token_in_address := "TB", token_in_amount := 150
         token_out_address := "TA", token_out_amount := 230 }]
    account_address := "X", profit_token_address := "TA"
    start_amount := 200, end_amount := 230, profit_amount := 30 }

/-! ## Properties of the detection loop -/

/-- The cycle-link relation between consecutive swaps of an arbitrage
path: the next swap's pool is the previous swap's destination and its
input token is the previous swap's output token. -/
def cycleLink (x y : Swap) : Prop :=
  y.pool_address = x.to_address ∧ y.token_in_address = x.token_out_address

/-- The closed-cycle invariant of an emitted Arbitrage: at least two
swaps, consecutively linked, and the last swap returns to the first
swap's originating account with its input token. -/
def cycle_invariant (a : Arbitrage) : Prop :=
  2 ≤ a.swaps.length ∧
  a.swaps.Chain' cycleLink ∧
  ∃ fst lst, a.swaps.head? = some fst ∧ a.swaps.getLast? = some lst ∧
    lst.to_address = fst.from_address ∧ lst.token_out_address = fst.token_in_address

theorem mem_swapsMatching {other_swaps : List Swap} {addr tok : String} {s : Swap}
    (h : s ∈ swapsMatching other_swaps addr tok) :
    s.pool_address = addr ∧ s.token_in_address = tok := by
  have := List.mem_filter.mp h
  rcases this with ⟨-, hcond⟩
  simp only [Bool.and_eq_true] at hcond
  rcases hcond with ⟨h1, h2⟩
  exact ⟨eq_of_beq h1, eq_of_beq h2⟩

theorem searchLoop_found_spec (start_swap : Swap) (other_swaps : List Swap) :
    ∀ (fuel : Nat) (swap_path : List Swap) (addr tok : String) (a : Arbitrage),
      searchLoop start_swap other_swaps fuel swap_path addr tok = SearchOutcome.found a →
      a.account_address = start_swap.from_address ∧
      a.profit_token_address = start_swap.token_in_address ∧
      a.start_amount = start_swap.token_in_amount ∧
      a.profit_amount = a.end_amount - a.start_amount ∧
      (∃ w, a.swaps.getLast? = some w ∧ a.end_amount = w.token_out_amount ∧
        w.to_address = start_swap.from_address ∧
        w.token_out_address = start_swap.token_in_address) ∧
      (∃ ext, ext ≠ [] ∧ a.swaps = swap_path ++ ext) := by
  intro fuel
  induction fuel with
  | zero =>
    intro swap_path addr tok a h
    simp [searchLoop] at h
  | succ n ih =>
    intro swap_path addr tok a h
    rw [searchLoop] at h
    cases hm : swapsMatching other_swaps addr tok with
    | nil => rw [hm] at h; simp at h
    | cons latest_swap tail =>
      cases tail with
      | nil =>
        rw [hm] at h
        simp only at h
        by_cases hc : (latest_swap.to_address == start_swap.from_address
            && latest_swap.token_out_address == start_swap.token_in_address) = true
        · rw [if_pos hc] at h
          cases h
          simp only [Bool.and_eq_true] at hc
          rcases hc with ⟨hc1, hc2⟩
          refine ⟨rfl, rfl, rfl, rfl,
            ⟨latest_swap, ?_, rfl, eq_of_beq hc1, eq_of_beq hc2⟩,
            ⟨[latest_swap], by simp, rfl⟩⟩
          simp [mkArbitrage, List.getLast?_concat]
        · rw [if_neg hc] at h
          rcases ih _ _ _ _ h with ⟨h1, h2, h3, h4, h5, ext, hne, heq⟩
          refine ⟨h1, h2, h3, h4, h5, latest_swap :: ext, by simp, ?_⟩
          rw [heq, List.append_assoc]
          rfl
      | cons b tail2 => rw [hm] at h; simp at h

theorem searchLoop_chain_spec (start_swap : Swap) (other_swaps : List Swap) :
    ∀ (fuel : Nat) (swap_path : List Swap) (addr tok : String) (a : Arbitrage),
      searchLoop start_swap other_swaps fuel swap_path addr tok = SearchOutcome.found a →
      swap_path.Chain' cycleLink →
      (∃ w, swap_path.getLast? = some w ∧ w.to_address = addr ∧ w.token_out_address = tok) →
      a.swaps.Chain' cycleLink := by
  intro fuel
  induction fuel with
  | zero =>
    intro swap_path addr tok a h
    simp [searchLoop] at h
  | succ n ih =>
    intro swap_path addr tok a h hchain hlast
    rw [searchLoop] at h
    cases hm : swapsMatching other_swaps addr tok with
    | nil => rw [hm] at h; simp at h
    | cons latest_swap tail =>
      cases tail with
      | nil =>
        rw [hm] at h
        simp only at h
        have hmem : latest_swap ∈ swapsMatching other_swaps addr tok := by
          rw [hm]; exact List.mem_cons_self _ _
        rcases mem_swapsMatching hmem with ⟨hpool, htok⟩
        rcases hlast with ⟨w, hw, hwto, hwtok⟩
        have hchain' : (swap_path ++ [latest_swap]).Chain' cycleLink := by
          rw [List.chain'_append]
          refine ⟨hchain, List.chain'_singleton _, ?_⟩
          intro x hx y hy
          rw [hw] at hx
          simp only [Option.mem_def, Option.some_inj] at hx
          simp only [List.head?_cons, Option.mem_def, Option.some_inj] at hy
          subst hx; subst hy
          exact ⟨hpool.trans hwto.symm, htok.trans hwtok.symm⟩
        by_cases hc : (latest_swap.to_address == start_swap.from_address
            && latest_swap.token_out_address == start_swap.token_in_address) = true
        · rw [if_pos hc] at h
          cases h
          exact hchain'
        · rw [if_neg hc] at h
          refine ih _ _ _ _ h hchain' ⟨latest_swap, ?_, rfl, rfl⟩
          simp [List.getLast?_concat]
      | cons b tail2 => rw [hm] at h; simp at h

/-- Claim C1: whenever the path-following search started at swap `s`
closes, the detector emits exactly one Arbitrage; its swap list is the
followed path (starting at `s`), its account_address is `s.from_address`,
its profit_token_address is `s.token_in_address`, its start_amount is
`s.token_in_amount`, its end_amount is the last path swap's
token_out_amount, and its profit_amount is end_amount − start_amount.
No profitability hypothesis appears: the statement holds equally when
end_amount < start_amount (see the witness, whose profit is negative). -/
theorem found_arbitrage_fields (fuel : Nat) (s : Swap) (other_swaps : List Swap)
    (a : Arbitrage)
    (h : get_arbitrage_starting_with_swap fuel s other_swaps = SearchOutcome.found a) :
    a.swaps.head? = some s ∧
    a.account_address = s.from_address ∧
    a.profit_token_address = s.token_in_address ∧
    a.start_amount = s.token_in_amount ∧
    (∃ w, a.swaps.getLast? = some w ∧ a.end_amount = w.token_out_amount) ∧
    a.profit_amount = a.end_amount - a.start_amount := by
  rcases searchLoop_found_spec s other_swaps fuel [s] s.to_address s.token_out_address a h
    with ⟨h1, h2, h3, h4, ⟨w, hw1, hw2, -, -⟩, ext, -, heq⟩
  refine ⟨?_, h1, h2, h3, ⟨w, hw1, hw2⟩, h4⟩
  rw [heq]
  simp

/-- Witness for C1 at a concrete closing cycle whose end amount (90) is
below its start amount (100): the Arbitrage is still emitted and its
profit_amount is negative. -/
theorem found_arbitrage_fields_witness :
    get_arbitrage_starting_with_swap 5 swapStartNeg [swapCloseNeg]
      = SearchOutcome.found arbNeg ∧
    arbNeg.profit_amount < 0 ∧
    (arbNeg.swaps.head? = some swapStartNeg ∧
      arbNeg.account_address = swapStartNeg.from_address ∧
      arbNeg.profit_token_address = swapStartNeg.token_in_address ∧
      arbNeg.start_amount = swapStartNeg.token_in_amount ∧
      (∃ w, arbNeg.swaps.getLast? = some w ∧ arbNeg.end_amount = w.token_out_amount) ∧
      arbNeg.profit_amount = arbNeg.end_amount - arbNeg.start_amount) :=
  ⟨by decide, by decide,
    found_arbitrage_fields 5 swapStartNeg [swapCloseNeg] arbNeg (by decide)⟩

/-- Claim C2 (refuted — code bug): the source loop searches all of
`other_swaps` on every iteration and never removes a swap that was
already appended to the path.  At the concrete input below, the swap
`swapSelfLoop` has been appended twice after two iterations (the
outOfFuel outcome records the grown path), so a swap already used for
this start is matched and appended a second time, contradicting the
claimed exclusion. -/
theorem search_reuses_used_swap :
    get_arbitrage_starting_with_swap 2 swapLoopStart [swapSelfLoop]
      = SearchOutcome.outOfFuel [swapLoopStart, swapSelfLoop, swapSelfLoop] "P1" "B" ∧
    [swapLoopStart, swapSelfLoop, swapSelfLoop].count swapSelfLoop = 2 :=
  ⟨by decide, by decide⟩

/-- Whether a search outcome is the fuel-exhaustion marker, i.e. the
Python loop is still running after the given number of iterations. -/
def SearchOutcome.isOutOfFuel : SearchOutcome → Bool
  | SearchOutcome.outOfFuel _ _ _ => true
  | _ => false

theorem searchLoop_selfLoop_diverges :
    ∀ (fuel : Nat) (swap_path : List Swap),
      (searchLoop swapLoopStart [swapSelfLoop] fuel swap_path "P1" "B").isOutOfFuel = true := by
  intro fuel
  induction fuel with
  | zero => intro swap_path; rfl
  | succ n ih =>
    intro swap_path
    rw [searchLoop]
    have hm : swapsMatching [swapSelfLoop] "P1" "B" = [swapSelfLoop] := by decide
    rw [hm]
    simp only
    rw [if_neg (by decide)]
    exact ih (swap_path ++ [swapSelfLoop])

/-- Claim C3 (refuted — code bug): the path-following loop of
`_get_arbitrage_starting_with_swap` does not terminate for every finite
list of swaps.  On the two-swap input below the loop state (pool P1,
token B) recurs after every iteration, so for every number of iterations
the loop is still running. -/
theorem search_loop_diverges_on_self_loop (fuel : Nat) :
    (get_arbitrage_starting_with_swap fuel swapLoopStart [swapSelfLoop]).isOutOfFuel
      = true :=
  searchLoop_selfLoop_diverges fuel [swapLoopStart]

/-! ## Properties of detection over a whole swap list -/

theorem arbitragesGo_ok_mem (fuel : Nat) (allSwaps : List Swap) (pools : List String) :
    ∀ (l : List (Nat × Swap)) (arbs : List Arbitrage),
      arbitragesGo fuel allSwaps pools l = DetectResult.ok arbs →
      ∀ a ∈ arbs, ∃ first_swap other_swaps,
        get_arbitrage_starting_with_swap fuel first_swap other_swaps
          = SearchOutcome.found a := by
  intro l
  induction l with
  | nil =>
    intro arbs h a ha
    rw [arbitragesGo] at h
    cases h
    simp at ha
  | cons p rest ih =>
    intro arbs h a ha
    obtain ⟨i, first_swap⟩ := p
    rw [arbitragesGo] at h
    by_cases hpool : pools.contains first_swap.from_address = true
    · rw [if_pos hpool] at h
      exact ih arbs h a ha
    · rw [if_neg hpool] at h
      cases hs : get_arbitrage_starting_with_swap fuel first_swap
          (allSwaps.take i ++ allSwaps.drop (i + 1)) with
      | found a0 =>
        rw [hs] at h
        cases hr : arbitragesGo fuel allSwaps pools rest with
        | ok arbs' =>
          rw [hr] at h
          simp only at h
          cases h
          rcases List.mem_cons.mp ha with rfl | ha'
          · exact ⟨first_swap, allSwaps.take i ++ allSwaps.drop (i + 1), hs⟩
          · exact ih arbs' hr a ha'
        | runtimeError => rw [hr] at h; simp at h
        | outOfFuel => rw [hr] at h; simp at h
      | noMatch => rw [hs] at h; exact ih arbs h a ha
      | ambiguous => rw [hs] at h; simp at h
      | outOfFuel p addr tok => rw [hs] at h; simp at h

/-- Claim C8: every Arbitrage in a list returned by detection satisfies
the cycle invariant: at least two swaps, consecutive swaps linked by
pool = previous to_address and token_in = previous token_out, and the
last swap returning to the first swap's account with its input token. -/
theorem emitted_arbitrage_cycle_invariant (fuel : Nat) (swaps : List Swap)
    (arbs : List Arbitrage) (a : Arbitrage)
    (hok : get_arbitrages_from_swaps fuel swaps = DetectResult.ok arbs)
    (ha : a ∈ arbs) : cycle_invariant a := by
  obtain ⟨first_swap, other_swaps, hf⟩ :=
    arbitragesGo_ok_mem fuel swaps (swaps.map Swap.pool_address) swaps.enum arbs hok a ha
  have hloop :
      searchLoop first_swap other_swaps fuel [first_swap]
        first_swap.to_address first_swap.token_out_address = SearchOutcome.found a := hf
  rcases searchLoop_found_spec first_swap other_swaps fuel [first_swap]
      first_swap.to_address first_swap.token_out_address a hloop
    with ⟨-, -, -, -, ⟨w, hw1, -, hw3, hw4⟩, ext, hne, heq⟩
  have hchain : a.swaps.Chain' cycleLink := by
    refine searchLoop_chain_spec first_swap other_swaps fuel [first_swap]
      first_swap.to_address first_swap.token_out_address a hloop ?_ ?_
    · exact List.chain'_singleton _
    · exact ⟨first_swap, rfl, rfl, rfl⟩
  have hhead : a.swaps.head? = some first_swap := by
    rw [heq]; simp
  refine ⟨?_, hchain, first_swap, w, hhead, hw1, hw3, hw4⟩
  rw [heq]
  simp only [List.length_append, List.length_singleton]
  have : 1 ≤ ext.length := List.length_pos.mpr hne
  omega

/-- Witness for C8 at a concrete detection run returning one arbitrage. -/
theorem emitted_arbitrage_cycle_invariant_witness :
    get_arbitrages_from_swaps 5 [swapStartNeg, swapCloseNeg] = DetectResult.ok [arbNeg] ∧
    arbNeg ∈ [arbNeg] ∧
    cycle_invariant arbNeg :=
  ⟨by decide, by simp,
    emitted_arbitrage_cycle_invariant 5 [swapStartNeg, swapCloseNeg] [arbNeg] arbNeg
      (by decide) (by simp)⟩

theorem arbitragesGo_not_ok_of_ambiguous (fuel : Nat) (allSwaps : List Swap)
    (pools : List String) :
    ∀ (l : List (Nat × Swap)) (i : Nat) (first_swap : Swap),
      (i, first_swap) ∈ l →
      pools.contains first_swap.from_address = false →
      get_arbitrage_starting_with_swap fuel first_swap
        (allSwaps.take i ++ allSwaps.drop (i + 1)) = SearchOutcome.ambiguous →
      (arbitragesGo fuel allSwaps pools l).isOk = false := by
  intro l
  induction l with
  | nil => intro i first_swap hmem; simp at hmem
  | cons p rest ih =>
    intro i first_swap hmem hpool hamb
    rcases List.mem_cons.mp hmem with heq | hmem'
    · subst heq
      rw [arbitragesGo, if_neg (by rw [hpool]; exact Bool.false_ne_true), hamb]
      rfl
    · obtain ⟨j, fst⟩ := p
      have hrest := ih i first_swap hmem' hpool hamb
      rw [arbitragesGo]
      by_cases hp : pools.contains fst.from_address = true
      · rw [if_pos hp]; exact hrest
      · rw [if_neg hp]
        cases hs : get_arbitrage_starting_with_swap fuel fst
            (allSwaps.take j ++ allSwaps.drop (j + 1)) with
        | found a0 =>
          cases hr : arbitragesGo fuel allSwaps pools rest with
          | ok arbs' => rw [hr] at hrest; simp [DetectResult.isOk] at hrest
          | runtimeError => rfl
          | outOfFuel => rfl
        | noMatch => exact hrest
        | ambiguous => rfl
        | outOfFuel p addr tok => rfl

/-- Claim C4: if some qualifying start (its from_address is not a pool
address) meets more than one matching continuation, detection as a whole
never returns an arbitrage list for the data — the raised RuntimeError
aborts `_get_arbitrages_from_swaps` for every start, rather than
skipping only the ambiguous one. -/
theorem ambiguous_start_aborts_detection (fuel : Nat) (swaps : List Swap) (i : Nat)
    (h : i < swaps.length)
    (hstart : (swaps.map Swap.pool_address).contains (swaps.get ⟨i, h⟩).from_address = false)
    (hamb : get_arbitrage_starting_with_swap fuel (swaps.get ⟨i, h⟩)
      (swaps.take i ++ swaps.drop (i + 1)) = SearchOutcome.ambiguous) :
    (get_arbitrages_from_swaps fuel swaps).isOk = false := by
  refine arbitragesGo_not_ok_of_ambiguous fuel swaps (swaps.map Swap.pool_address)
    swaps.enum i (swaps.get ⟨i, h⟩) ?_ hstart hamb
  rw [List.mk_mem_enum_iff_getElem?]
  simp [List.getElem?_eq_getElem h]

/-- Witness for C4: the start `ambStart` has two matching continuations
(`ambOne`, `ambTwo`), and detection over the three swaps returns no list. -/
theorem ambiguous_start_aborts_detection_witness :
    (0 : Nat) < [ambStart, ambOne, ambTwo].length ∧
    ([ambStart, ambOne, ambTwo].map Swap.pool_address).contains ambStart.from_address
      = false ∧
    get_arbitrage_starting_with_swap 5 ambStart
      ([ambStart, ambOne, ambTwo].take 0 ++ [ambStart, ambOne, ambTwo].drop 1)
      = SearchOutcome.ambiguous ∧
    (get_arbitrages_from_swaps 5 [ambStart, ambOne, ambTwo]).isOk = false :=
  ⟨by decide, by decide, by decide,
    ambiguous_start_aborts_detection 5 [ambStart, ambOne, ambTwo] 0 (by decide)
      (by decide) (by decide)⟩

/-- Claim C7: when a transaction's traces reconstruct to fewer than two
swaps, per-transaction processing returns the empty arbitrage list
without attempting detection. -/
theorem under_two_swaps_empty_detection (fuel : Nat) (traces : List ClassifiedTrace)
    (h : (get_swaps traces).length ≤ 1) :
    get_arbitrages_for_transaction fuel traces = DetectResult.ok [] := by
  unfold get_arbitrages_for_transaction
  rw [if_neg (by omega)]

/-- Witness for C7: three traces reconstructing to exactly one swap. -/
theorem under_two_swaps_empty_detection_witness :
    (get_swaps [txB0, txB1, txB2]).length ≤ 1 ∧
    get_arbitrages_for_transaction 5 [txB0, txB1, txB2] = DetectResult.ok [] :=
  ⟨by decide, under_two_swaps_empty_detection 5 [txB0, txB1, txB2] (by decide)⟩

/-! ## Properties of swap reconstruction -/

theorem parse_v2_some_inv (t : ClassifiedTrace) (prior child : List Transfer) (s : Swap)
    (h : parse_uniswap_v2_swap t prior child = some s) :
    ∃ tin tout, (transfers_to_pool_v2 t prior).getLast? = some tin ∧
      transfers_out_v2 t child = [tout] ∧
      s = { abi_name := UNISWAP_V2_PAIR_ABI_NAME
            transaction_hash := t.transaction_hash
            trace_address := t.trace_address
            pool_address := t.to_address
            from_address := tin.from_address
            to_address := tout.to_address
            token_in_address := tin.token_address
            token_in_amount := tin.amount
            token_out_address := tout.token_address
            token_out_amount := tout.amount } := by
  unfold parse_uniswap_v2_swap at h
  split at h
  · rename_i tin tout heq1 heq2
    cases h
    exact ⟨tin, tout, heq1, heq2, rfl⟩
  · cases h

theorem parse_v3_some_inv (t : ClassifiedTrace) (child : List Transfer) (s : Swap)
    (h : parse_uniswap_v3_swap t child = some s) :
    ∃ tin tout, (transfers_to_pool_v3 t child).getLast? = some tin ∧
      transfers_out_v3 t child = [tout] ∧
      s = { abi_name := UNISWAP_V3_POOL_ABI_NAME
            transaction_hash := t.transaction_hash
            trace_address := t.trace_address
            pool_address := t.to_address
            from_address := tin.from_address
            to_address := tout.to_address
            token_in_address := tin.token_address
            token_in_amount := tin.amount
            token_out_address := tout.token_address
            token_out_amount := tout.amount } := by
  unfold parse_uniswap_v3_swap at h
  split at h
  · rename_i tin tout heq1 heq2
    cases h
    exact ⟨tin, tout, heq1, heq2, rfl⟩
  · cases h

theorem parse_v2_eq_none (t : ClassifiedTrace) (prior child : List Transfer)
    (h : transfers_to_pool_v2 t prior = [] ∨ (transfers_out_v2 t child).length ≠ 1) :
    parse_uniswap_v2_swap t prior child = none := by
  cases hp : parse_uniswap_v2_swap t prior child with
  | none => rfl
  | some s =>
    exfalso
    rcases parse_v2_some_inv t prior child s hp with ⟨tin, tout, h1, h2, -⟩
    rcases h with h | h
    · rw [h] at h1; simp at h1
    · rw [h2] at h; simp at h

theorem parse_v3_eq_none (t : ClassifiedTrace) (child : List Transfer)
    (h : transfers_to_pool_v3 t child = [] ∨ (transfers_out_v3 t child).length ≠ 1) :
    parse_uniswap_v3_swap t child = none := by
  cases hp : parse_uniswap_v3_swap t child with
  | none => rfl
  | some s =>
    exfalso
    rcases parse_v3_some_inv t child s hp with ⟨tin, tout, h1, h2, -⟩
    rcases h with h | h
    · rw [h] at h1; simp at h1
    · rw [h2] at h; simp at h

theorem build_swap_some_inv (t : ClassifiedTrace) (prior child : List Transfer) (s : Swap)
    (h : build_swap t prior child = some s) :
    (t.abi_name = UNISWAP_V2_PAIR_ABI_NAME ∧
      parse_uniswap_v2_swap t prior child = some s) ∨
    (t.abi_name = UNISWAP_V3_POOL_ABI_NAME ∧
      parse_uniswap_v3_swap t child = some s) := by
  unfold build_swap at h
  by_cases h2 : t.abi_name = UNISWAP_V2_PAIR_ABI_NAME
  · rw [if_pos h2] at h
    exact Or.inl ⟨h2, h⟩
  · rw [if_neg h2] at h
    by_cases h3 : t.abi_name = UNISWAP_V3_POOL_ABI_NAME
    · rw [if_pos h3] at h
      exact Or.inr ⟨h3, h⟩
    · rw [if_neg h3] at h
      cases h

/-- Claim C5: a swap-classified trace yields no Swap (an absence value,
never an error) when its protocol name is unrecognized, or when its
transfers_to_pool list is empty, or when its
transfers_from_pool_to_recipient list is not a singleton — for the V2
pattern the inputs are the prior transfers, for the V3 pattern the child
transfers. -/
theorem build_swap_none_on_unmatched (t : ClassifiedTrace)
    (prior child : List Transfer)
    (h : (t.abi_name ≠ UNISWAP_V2_PAIR_ABI_NAME ∧ t.abi_name ≠ UNISWAP_V3_POOL_ABI_NAME)
      ∨ (t.abi_name = UNISWAP_V2_PAIR_ABI_NAME ∧
          (transfers_to_pool_v2 t prior = [] ∨ (transfers_out_v2 t child).length ≠ 1))
      ∨ (t.abi_name = UNISWAP_V3_POOL_ABI_NAME ∧
          (transfers_to_pool_v3 t child = [] ∨ (transfers_out_v3 t child).length ≠ 1))) :
    build_swap t prior child = none := by
  unfold build_swap
  rcases h with ⟨h1, h2⟩ | ⟨h1, h2⟩ | ⟨h1, h2⟩
  · rw [if_neg h1, if_neg h2]
  · rw [if_pos h1]
    exact parse_v2_eq_none t prior child h2
  · rw [if_neg (by rw [h1]; decide), if_pos h1]
    exact parse_v3_eq_none t child h2

/-- Witness for C5: a swap trace with an unrecognized protocol name
(and, for good measure, nonempty transfer evidence) yields none. -/
theorem build_swap_none_on_unmatched_witness :
    (trUnrecognized.abi_name ≠ UNISWAP_V2_PAIR_ABI_NAME ∧
      trUnrecognized.abi_name ≠ UNISWAP_V3_POOL_ABI_NAME) ∧
    build_swap trUnrecognized [tIn] [tOut] = none :=
  ⟨by decide,
    build_swap_none_on_unmatched trUnrecognized [tIn] [tOut]
      (Or.inl ⟨by decide, by decide⟩)⟩

theorem mem_filter_transfers_both {ts : List Transfer} {ta fa : String} {x : Transfer}
    (h : x ∈ filter_transfers ts (some ta) (some fa)) :
    x.to_address = ta ∧ x.from_address = fa := by
  rcases List.mem_filter.mp h with ⟨-, hc⟩
  simp only [Bool.and_eq_true, beq_iff_eq] at hc
  exact hc

/-- Claim C6: on every successful build (V2 pattern with prior input
transfers, V3 pattern with child input transfers), the chosen input
transfer is the last element of transfers_to_pool, the chosen output
transfer is the single element of transfers_from_pool_to_recipient, the
output transfer goes from the pool to the recipient computed as the
decoded inputs field ("to" for V2, "recipient" for V3) falling back to
the call's from_address (this is `trace_recipient`), and the Swap's
token_in fields come from the input transfer while its token_out fields
come from the output transfer. -/
theorem build_swap_success_fields (t : ClassifiedTrace) (prior child : List Transfer)
    (s : Swap) (h : build_swap t prior child = some s) :
    (t.abi_name = UNISWAP_V2_PAIR_ABI_NAME ∧
      ∃ tin tout,
        (transfers_to_pool_v2 t prior).getLast? = some tin ∧
        transfers_out_v2 t child = [tout] ∧
        tout.to_address = trace_recipient t "to" ∧
        tout.from_address = t.to_address ∧
        s.token_in_address = tin.token_address ∧ s.token_in_amount = tin.amount ∧
        s.token_out_address = tout.token_address ∧ s.token_out_amount = tout.amount) ∨
    (t.abi_name = UNISWAP_V3_POOL_ABI_NAME ∧
      ∃ tin tout,
        (transfers_to_pool_v3 t child).getLast? = some tin ∧
        transfers_out_v3 t child = [tout] ∧
        tout.to_address = trace_recipient t "recipient" ∧
        tout.from_address = t.to_address ∧
        s.token_in_address = tin.token_address ∧ s.token_in_amount = tin.amount ∧
        s.token_out_address = tout.token_address ∧ s.token_out_amount = tout.amount) := by
  rcases build_swap_some_inv t prior child s h with ⟨habi, hp⟩ | ⟨habi, hp⟩
  · rcases parse_v2_some_inv t prior child s hp with ⟨tin, tout, h1, h2, rfl⟩
    have hmem : tout ∈ transfers_out_v2 t child := by
      rw [h2]; exact List.mem_cons_self _ _
    rcases mem_filter_transfers_both hmem with ⟨hto, hfrom⟩
    exact Or.inl ⟨habi, tin, tout, h1, h2, hto, hfrom, rfl, rfl, rfl, rfl⟩
  · rcases parse_v3_some_inv t child s hp with ⟨tin, tout, h1, h2, rfl⟩
    have hmem : tout ∈ transfers_out_v3 t child := by
      rw [h2]; exact List.mem_cons_self _ _
    rcases mem_filter_transfers_both hmem with ⟨hto, hfrom⟩
    exact Or.inr ⟨habi, tin, tout, h1, h2, hto, hfrom, rfl, rfl, rfl, rfl⟩

/-- Witness for C6 at a concrete V2 build. -/
theorem build_swap_success_fields_witness :
    build_swap trV2 [tIn] [tOut] = some swapV2Built ∧
    ((trV2.abi_name = UNISWAP_V2_PAIR_ABI_NAME ∧
      ∃ tin tout,
        (transfers_to_pool_v2 trV2 [tIn]).getLast? = some tin ∧
        transfers_out_v2 trV2 [tOut] = [tout] ∧
        tout.to_address = trace_recipient trV2 "to" ∧
        tout.from_address = trV2.to_address ∧
        swapV2Built.token_in_address = tin.token_address ∧
        swapV2Built.token_in_amount = tin.amount ∧
        swapV2Built.token_out_address = tout.token_address ∧
        swapV2Built.token_out_amount = tout.amount) ∨
    (trV2.abi_name = UNISWAP_V3_POOL_ABI_NAME ∧
      ∃ tin tout,
        (transfers_to_pool_v3 trV2 [tOut]).getLast? = some tin ∧
        transfers_out_v3 trV2 [tOut] = [tout] ∧
        tout.to_address = trace_recipient trV2 "recipient" ∧
        tout.from_address = trV2.to_address ∧
        swapV2Built.token_in_address = tin.token_address ∧
        swapV2Built.token_in_amount = tin.amount ∧
        swapV2Built.token_out_address = tout.token_address ∧
        swapV2Built.token_out_amount = tout.amount)) :=
  ⟨by decide, build_swap_success_fields trV2 [tIn] [tOut] swapV2Built (by decide)⟩

/-- Claim C10: on every successful build, the Swap's from_address is the
from_address of the selected input transfer (the last transfer into the
pool) and its to_address is the to_address of the selected output
transfer; they are taken from the matched token movements, not from the
swap call's own caller and callee. -/
theorem swap_addresses_from_transfers (t : ClassifiedTrace) (prior child : List Transfer)
    (s : Swap) (h : build_swap t prior child = some s) :
    (t.abi_name = UNISWAP_V2_PAIR_ABI_NAME ∧
      ∃ tin tout,
        (transfers_to_pool_v2 t prior).getLast? = some tin ∧
        transfers_out_v2 t child = [tout] ∧
        s.from_address = tin.from_address ∧ s.to_address = tout.to_address) ∨
    (t.abi_name = UNISWAP_V3_POOL_ABI_NAME ∧
      ∃ tin tout,
        (transfers_to_pool_v3 t child).getLast? = some tin ∧
        transfers_out_v3 t child = [tout] ∧
        s.from_address = tin.from_address ∧ s.to_address = tout.to_address) := by
  rcases build_swap_some_inv t prior child s h with ⟨habi, hp⟩ | ⟨habi, hp⟩
  · rcases parse_v2_some_inv t prior child s hp with ⟨tin, tout, h1, h2, rfl⟩
    exact Or.inl ⟨habi, tin, tout, h1, h2, rfl, rfl⟩
  · rcases parse_v3_some_inv t child s hp with ⟨tin, tout, h1, h2, rfl⟩
    exact Or.inr ⟨habi, tin, tout, h1, h2, rfl, rfl⟩

/-- Witness for C10 at a concrete V3 build whose input transfer sender W
differs from the swap call's own from_address X. -/
theorem swap_addresses_from_transfers_witness :
    build_swap trV3 [] [uIn, uOut] = some swapV3Built ∧
    swapV3Built.from_address ≠ trV3.from_address ∧
    ((trV3.abi_name = UNISWAP_V2_PAIR_ABI_NAME ∧
      ∃ tin tout,
        (transfers_to_pool_v2 trV3 []).getLast? = some tin ∧
        transfers_out_v2 trV3 [uIn, uOut] = [tout] ∧
        swapV3Built.from_address = tin.from_address ∧
        swapV3Built.to_address = tout.to_address) ∨
    (trV3.abi_name = UNISWAP_V3_POOL_ABI_NAME ∧
      ∃ tin tout,
        (transfers_to_pool_v3 trV3 [uIn, uOut]).getLast? = some tin ∧
        transfers_out_v3 trV3 [uIn, uOut] = [tout] ∧
        swapV3Built.from_address = tin.from_address ∧
        swapV3Built.to_address = tout.to_address)) :=
  ⟨by decide, by decide,
    swap_addresses_from_transfers trV3 [] [uIn, uOut] swapV3Built (by decide)⟩

/-! ## Properties of the grouping entry point -/

theorem mem_insertLe (le : α → α → Bool) (a x : α) (l : List α) :
    x ∈ insertLe le a l ↔ x = a ∨ x ∈ l := by
  induction l with
  | nil => simp [insertLe]
  | cons b bs ih =>
    by_cases h : le b a = true
    · simp only [insertLe, if_pos h, List.mem_cons, ih]
      tauto
    · simp [insertLe, if_neg h, List.mem_cons]

theorem pairwise_insertLe (le : α → α → Bool)
    (total : ∀ a b, (le a b || le b a) = true)
    (trans : ∀ a b c, le a b = true → le b c = true → le a c = true)
    (a : α) (l : List α) (h : l.Pairwise (fun x y => le x y = true)) :
    (insertLe le a l).Pairwise (fun x y => le x y = true) := by
  induction l with
  | nil => simp [insertLe]
  | cons b bs ih =>
    rcases List.pairwise_cons.mp h with ⟨hb, hbs⟩
    by_cases hba : le b a = true
    · rw [insertLe, if_pos hba]
      refine List.pairwise_cons.mpr ⟨?_, ih hbs⟩
      intro x hx
      rcases (mem_insertLe le a x bs).mp hx with rfl | hxbs
      · exact hba
      · exact hb x hxbs
    · rw [insertLe, if_neg hba]
      have hab : le a b = true := by
        have htot := total a b
        cases hh : le a b
        · rw [hh] at htot
          simp at htot
          exact absurd htot hba
        · rfl
      refine List.pairwise_cons.mpr ⟨?_, h⟩
      intro x hx
      rcases List.mem_cons.mp hx with rfl | hxbs
      · exact hab
      · exact trans a b x hab (hb x hxbs)

theorem pairwise_stableSortBy (le : α → α → Bool)
    (total : ∀ a b, (le a b || le b a) = true)
    (trans : ∀ a b c, le a b = true → le b c = true → le a c = true)
    (l : List α) :
    (stableSortBy le l).Pairwise (fun x y => le x y = true) := by
  suffices h : ∀ acc, acc.Pairwise (fun x y => le x y = true) →
      (l.foldl (fun acc a => insertLe le a acc) acc).Pairwise (fun x y => le x y = true) by
    exact h [] (by simp)
  induction l with
  | nil =>
    intro acc hacc
    simpa using hacc
  | cons a as ih =>
    intro acc hacc
    exact ih (insertLe le a acc) (pairwise_insertLe le total trans a acc hacc)

theorem perm_insertLe (le : α → α → Bool) (a : α) (l : List α) :
    List.Perm (insertLe le a l) (a :: l) := by
  induction l with
  | nil => rfl
  | cons b bs ih =>
    by_cases h : le b a = true
    · rw [insertLe, if_pos h]
      exact (List.Perm.cons b ih).trans (List.Perm.swap a b bs)
    · rw [insertLe, if_neg h]

theorem perm_stableSortBy (le : α → α → Bool) (l : List α) :
    List.Perm (stableSortBy le l) l := by
  suffices h : ∀ acc, List.Perm (l.foldl (fun acc a => insertLe le a acc) acc) (acc ++ l) by
    exact h []
  induction l with
  | nil =>
    intro acc
    simp
  | cons a as ih =>
    intro acc
    have h1 : List.Perm (List.foldl (fun acc a => insertLe le a acc) (insertLe le a acc) as)
        (insertLe le a acc ++ as) := ih (insertLe le a acc)
    have h2 : List.Perm (insertLe le a acc ++ as) ((a :: acc) ++ as) :=
      (perm_insertLe le a acc).append_right as
    have h3 : List.Perm (a :: (acc ++ as)) (acc ++ a :: as) := List.perm_middle.symm
    exact (h1.trans h2).trans h3

theorem charListLe_total : ∀ as bs, (charListLe as bs || charListLe bs as) = true := by
  intro as
  induction as with
  | nil => intro bs; simp [charListLe]
  | cons c cs ih =>
    intro bs
    cases bs with
    | nil => simp [charListLe]
    | cons d ds =>
      rcases Nat.lt_trichotomy c.toNat d.toNat with h | h | h
      · simp [charListLe, h]
      · simp [charListLe, h, Nat.lt_irrefl, ih ds]
      · simp [charListLe, h, Nat.lt_asymm h]

theorem charListLe_trans : ∀ as bs cs, charListLe as bs = true → charListLe bs cs = true →
    charListLe as cs = true := by
  intro as
  induction as with
  | nil =>
    intro bs cs _ _
    simp [charListLe]
  | cons a as' ih =>
    intro bs cs h1 h2
    cases bs with
    | nil => simp [charListLe] at h1
    | cons b bs' =>
      cases cs with
      | nil => simp [charListLe] at h2
      | cons c cs' =>
        simp only [charListLe] at h1 h2 ⊢
        split at h1
        · rename_i hab
          split at h2
          · rename_i hbc
            rw [if_pos (Nat.lt_trans hab hbc)]
          · split at h2
            · exact absurd h2 (by simp)
            · rename_i hbc1 hbc2
              have hbc : b.toNat = c.toNat := by omega
              rw [if_pos (hbc ▸ hab)]
        · split at h1
          · exact absurd h1 (by simp)
          · rename_i hab1 hab2
            have hab : a.toNat = b.toNat := by omega
            split at h2
            · rename_i hbc
              rw [if_pos (hab ▸ hbc)]
            · split at h2
              · exact absurd h2 (by simp)
              · rename_i hbc1 hbc2
                rw [if_neg (by omega), if_neg (by omega)]
                exact ih bs' cs' h1 h2

/-- Claim C9 (refuted as stated, see the amended theorem): the
per-partition results are NOT concatenated in partition-encounter order.
In the input below the traces of transaction "b" precede all traces of
transaction "a"; encounter order would give the partition list
[tracesB, tracesA] and the concatenation [arbB, arbA]
(second conjunct), yet `get_arbitrages` returns [arbA, arbB]
(first conjunct), the ascending-hash order, and these differ. -/
theorem get_arbitrages_not_encounter_order :
    get_arbitrages 5 (tracesB ++ tracesA) = DetectResult.ok [arbA, arbB] ∧
    concatTransactions 5 [tracesB, tracesA] = DetectResult.ok [arbB, arbA] ∧
    arbA ≠ arbB :=
  ⟨by decide, by decide, by decide⟩

/-- Claim C9 (amended): `get_arbitrages` partitions the full trace list
by transaction_hash — the hash-sorted trace list is a permutation of the
input, split into runs of equal hash — applies reconstruction and
detection per partition, and concatenates the per-partition results in
ascending transaction_hash order (the order produced by sorting the
traces by hash), not in first-encounter order. -/
theorem get_arbitrages_sorted_partitions (fuel : Nat) (traces : List ClassifiedTrace) :
    get_arbitrages fuel traces
      = concatTransactions fuel
          (List.splitBy (fun a b => a.transaction_hash == b.transaction_hash)
            (sortTracesByHash traces)) ∧
    List.Perm (sortTracesByHash traces) traces ∧
    (sortTracesByHash traces).Pairwise
      (fun a b => strLe a.transaction_hash b.transaction_hash = true) := by
  refine ⟨rfl, perm_stableSortBy _ traces, ?_⟩
  exact pairwise_stableSortBy _
    (fun a b => charListLe_total a.transaction_hash.data b.transaction_hash.data)
    (fun a b c => charListLe_trans a.transaction_hash.data b.transaction_hash.data
      c.transaction_hash.data)
    traces

end MevInspect
